import Mathlib

/-
Verification of the token-usage ext_proc handler (`main.go`).

The development shallowly embeds the decision logic of the gRPC `Process`
stream handler: the per-callback `switch` dispatch, the JSON usage
extraction performed through Go's `encoding/json`, the header-mutation
construction, and the receive/send loop.  Body payloads are modelled as
Lean strings (UTF-8 text); `json.Unmarshal` is modelled in two faithful
stages: a parser for the JSON grammar accepted by Go's scanner, and the
decode step into the handler's anonymous usage struct (unknown fields
ignored, missing fields left at their zero value, `null` a no-op,
case-insensitive field-name matching, 64-bit integer range checks).
-/

namespace TokenExtProc

/-- JSON values as produced by the scanner of Go's `encoding/json`.
Numbers record their integer value together with an `integral` flag:
Go decodes a number literal into an `int` field via `strconv.ParseInt`,
which succeeds exactly for plain integer literals, so a literal with a
fraction or exponent part is kept with `integral := false` (its numeric
value is never consulted by the handler, which only has `int` fields). -/
inductive Json where
  | null
  | bool (b : Bool)
  | num (n : Int) (integral : Bool)
  | str (s : String)
  | arr (elems : List Json)
  | obj (fields : List (String × Json))

/-- The opening-brace character (written via its code point). -/
def lbraceC : Char := Char.ofNat 123

/-- The closing-brace character (written via its code point). -/
def rbraceC : Char := Char.ofNat 125

/-- JSON insignificant whitespace, as in Go's `json.isSpace`. -/
def isWs (c : Char) : Bool :=
  c == ' ' || c == '\t' || c == '\n' || c == '\r'

/-- Drop leading JSON whitespace. -/
def skipWs : List Char → List Char
  | [] => []
  | c :: cs => if isWs c then skipWs cs else c :: cs

/-- Value of a hexadecimal digit, used for `\uXXXX` escapes. -/
def hexVal (c : Char) : Option Nat :=
  if 48 ≤ c.toNat ∧ c.toNat ≤ 57 then some (c.toNat - 48)
  else if 97 ≤ c.toNat ∧ c.toNat ≤ 102 then some (c.toNat - 87)
  else if 65 ≤ c.toNat ∧ c.toNat ≤ 70 then some (c.toNat - 55)
  else none

/-- U+FFFD, substituted by Go for invalid surrogate escapes. -/
def replacementChar : Char := Char.ofNat 0xFFFD

/-- Prepend a decoded character to a string-body parse result. -/
def consFst (ch : Char) :
    Option (List Char × List Char) → Option (List Char × List Char)
  | some (l, r) => some (ch :: l, r)
  | none => none

/-- Parse the body of a JSON string literal (the opening quote already
consumed), returning the decoded characters and the remaining input.
Models Go's string scanning and `unquote`: the escapes
`\" \\ \/ \b \f \n \r \t \uXXXX`, rejection of raw control characters,
UTF-16 surrogate pairs in `\u` escapes combined into one code point and
invalid surrogate halves replaced by U+FFFD. -/
def parseStringBody : Nat → List Char → Option (List Char × List Char)
  | 0, _ => none
  | _, [] => none
  | fuel+1, c :: rest =>
    if c == '"' then some ([], rest)
    else if c == '\\' then
      match rest with
      | [] => none
      | e :: rest2 =>
        if e == '"' || e == '\\' || e == '/' then
          consFst e (parseStringBody fuel rest2)
        else if e == 'b' then consFst (Char.ofNat 8) (parseStringBody fuel rest2)
        else if e == 'f' then consFst (Char.ofNat 12) (parseStringBody fuel rest2)
        else if e == 'n' then consFst (Char.ofNat 10) (parseStringBody fuel rest2)
        else if e == 'r' then consFst (Char.ofNat 13) (parseStringBody fuel rest2)
        else if e == 't' then consFst (Char.ofNat 9) (parseStringBody fuel rest2)
        else if e == 'u' then
          match rest2 with
          | h1 :: h2 :: h3 :: h4 :: rest3 =>
            match hexVal h1, hexVal h2, hexVal h3, hexVal h4 with
            | some a, some b, some c2, some d =>
              let v := ((a * 16 + b) * 16 + c2) * 16 + d
              if 0xD800 ≤ v ∧ v ≤ 0xDBFF then
                match rest3 with
                | s1 :: s2 :: g1 :: g2 :: g3 :: g4 :: rest4 =>
                  if s1 == '\\' && s2 == 'u' then
                    match hexVal g1, hexVal g2, hexVal g3, hexVal g4 with
                    | some a2, some b2, some c3, some d2 =>
                      let w := ((a2 * 16 + b2) * 16 + c3) * 16 + d2
                      if 0xDC00 ≤ w ∧ w ≤ 0xDFFF then
                        consFst (Char.ofNat (0x10000 + (v - 0xD800) * 0x400 + (w - 0xDC00)))
                          (parseStringBody fuel rest4)
                      else consFst replacementChar (parseStringBody fuel rest3)
                    | _, _, _, _ => consFst replacementChar (parseStringBody fuel rest3)
                  else consFst replacementChar (parseStringBody fuel rest3)
                | _ => consFst replacementChar (parseStringBody fuel rest3)
              else if 0xDC00 ≤ v ∧ v ≤ 0xDFFF then
                consFst replacementChar (parseStringBody fuel rest3)
              else consFst (Char.ofNat v) (parseStringBody fuel rest3)
            | _, _, _, _ => none
          | _ => none
        else none
    else if c.toNat < 32 then none
    else consFst c (parseStringBody fuel rest)

/-- Split off a (possibly empty) run of decimal digits. -/
def spanDigits : List Char → List Char × List Char
  | [] => ([], [])
  | c :: cs =>
    if c.isDigit then
      let (a, b) := spanDigits cs
      (c :: a, b)
    else ([], c :: cs)

/-- Numeric value of a digit run. -/
def digitsToNat (ds : List Char) : Nat :=
  ds.foldl (fun a c => a * 10 + (c.toNat - 48)) 0

/-- Parse the optional fraction and exponent parts of a number literal,
after its integer part.  A literal with either part is marked
non-integral (Go's `ParseInt` rejects it when decoding an `int`). -/
def afterIntPart (neg : Bool) (intDigits : List Char) (cs : List Char) :
    Option (Json × List Char) :=
  let fracStep : Option (List Char) :=
    match cs with
    | c :: rest =>
      if c == '.' then
        match spanDigits rest with
        | ([], _) => none
        | (_ :: _, rest2) => some rest2
      else some cs
    | [] => some cs
  match fracStep with
  | none => none
  | some cs2 =>
    let expStep : Option (List Char) :=
      match cs2 with
      | c :: rest =>
        if c == 'e' || c == 'E' then
          let rest2 :=
            match rest with
            | s :: more => if s == '+' || s == '-' then more else rest
            | [] => rest
          match spanDigits rest2 with
          | ([], _) => none
          | (_ :: _, rest3) => some rest3
        else some cs2
      | [] => some cs2
    match expStep with
    | none => none
    | some cs3 =>
      let integral := decide (cs3 = cs)
      let m : Int := Int.ofNat (digitsToNat intDigits)
      let v : Int := if neg then -m else m
      some (.num (if integral then v else 0) integral, cs3)

/-- Parse a JSON number literal per RFC 8259 (Go's scanner): optional
minus sign, integer part without superfluous leading zeros, optional
fraction and exponent. -/
def parseNumberLit (cs : List Char) : Option (Json × List Char) :=
  let (neg, cs1) :=
    match cs with
    | c :: rest => if c == '-' then (true, rest) else (false, cs)
    | [] => (false, cs)
  match cs1 with
  | [] => none
  | c :: rest =>
    if c == '0' then afterIntPart neg [c] rest
    else if c.isDigit then
      let (ds, rest2) := spanDigits rest
      afterIntPart neg (c :: ds) rest2
    else none

/-- Match an expected literal tail (`ull`, `rue`, `alse`). -/
def expectChars : List Char → List Char → Option (List Char)
  | [], cs => some cs
  | _ :: _, [] => none
  | e :: es, c :: cs => if c == e then expectChars es cs else none

/-- Intermediate results of the recursive-descent JSON parser. -/
inductive PRes where
  | val (j : Json)
  | fields (fs : List (String × Json))
  | items (js : List Json)

/-- Parser modes: a single value, the members of an object after its
opening brace (non-empty case), or the items of an array after its
opening bracket (non-empty case). -/
inductive PMode where
  | value
  | members
  | items

/-- The recursive-descent parser for the JSON grammar accepted by Go's
`encoding/json` scanner.  Input positions are whitespace-skipped by the
caller; the fuel only bounds nesting and strictly decreases on every
recursive call, so any fuel of at least the input length is sufficient. -/
def parseCore : Nat → PMode → List Char → Option (PRes × List Char)
  | 0, _, _ => none
  | fuel+1, .value, cs =>
    match cs with
    | [] => none
    | c :: rest =>
      if c == 'n' then
        match expectChars ['u', 'l', 'l'] rest with
        | some r => some (.val .null, r)
        | none => none
      else if c == 't' then
        match expectChars ['r', 'u', 'e'] rest with
        | some r => some (.val (.bool true), r)
        | none => none
      else if c == 'f' then
        match expectChars ['a', 'l', 's', 'e'] rest with
        | some r => some (.val (.bool false), r)
        | none => none
      else if c == '"' then
        match parseStringBody (rest.length + 1) rest with
        | some (l, r) => some (.val (.str (String.mk l)), r)
        | none => none
      else if c == '-' || c.isDigit then
        match parseNumberLit cs with
        | some (j, r) => some (.val j, r)
        | none => none
      else if c == lbraceC then
        let cs2 := skipWs rest
        match cs2 with
        | [] => none
        | d :: rest2 =>
          if d == rbraceC then some (.val (.obj []), rest2)
          else
            match parseCore fuel .members cs2 with
            | some (.fields fs, r) => some (.val (.obj fs), r)
            | _ => none
      else if c == '[' then
        let cs2 := skipWs rest
        match cs2 with
        | [] => none
        | d :: rest2 =>
          if d == ']' then some (.val (.arr []), rest2)
          else
            match parseCore fuel .items cs2 with
            | some (.items js, r) => some (.val (.arr js), r)
            | _ => none
      else none
  | fuel+1, .members, cs =>
    match cs with
    | [] => none
    | c :: rest =>
      if c == '"' then
        match parseStringBody (rest.length + 1) rest with
        | some (kcs, r1) =>
          match skipWs r1 with
          | colon :: r2 =>
            if colon == ':' then
              match parseCore fuel .value (skipWs r2) with
              | some (.val v, r3) =>
                match skipWs r3 with
                | e :: r5 =>
                  if e == ',' then
                    match parseCore fuel .members (skipWs r5) with
                    | some (.fields fs, r6) =>
                      some (.fields ((String.mk kcs, v) :: fs), r6)
                    | _ => none
                  else if e == rbraceC then
                    some (.fields [(String.mk kcs, v)], r5)
                  else none
                | [] => none
              | _ => none
            else none
          | [] => none
        | none => none
      else none
  | fuel+1, .items, cs =>
    match parseCore fuel .value cs with
    | some (.val v, r1) =>
      match skipWs r1 with
      | e :: r2 =>
        if e == ',' then
          match parseCore fuel .items (skipWs r2) with
          | some (.items js, r3) => some (.items (v :: js), r3)
          | _ => none
        else if e == ']' then some (.items [v], r2)
        else none
      | [] => none
    | _ => none

/-- Parse a complete JSON document as `json.Unmarshal` does: one value,
surrounded by optional whitespace, with nothing else trailing.
`none` models a `SyntaxError` from `Unmarshal`. -/
def parseJson (s : String) : Option Json :=
  let cs := skipWs s.data
  match parseCore (cs.length + 2) .value cs with
  | some (.val j, rest) => if (skipWs rest).isEmpty then some j else none
  | _ => none

/-- The usage record of `main.go`:
`struct { PromptTokens, TotalTokens, CompletionTokens int }` with tags
`prompt_tokens`, `total_tokens`, `completion_tokens`.  Go `int` is
modelled as `Int` with 64-bit range checks at decode time; a fresh
record starts at the zero value. -/
structure Usage where
  promptTokens : Int := 0
  totalTokens : Int := 0
  completionTokens : Int := 0
deriving DecidableEq

/-- One rune of Go's `foldName` (encoding/json `fold.go`): ASCII
letters fold to upper case, and the two non-ASCII runes whose simple
case-folding orbits reach into ASCII — U+017F latin small letter long
s and U+212A kelvin sign — fold to `S` and `K`, the smallest rune of
their orbits, exactly as `foldRune` computes.  Per Go's `fold.go` (see
golang.org/issue/4427) these two are the only runes that fold to
ASCII, and every comparison the decoder performs is against an ASCII
struct tag, so on all such comparisons `foldName` equality built from
this function agrees with `bytes.EqualFold`; folding between two
non-ASCII runes of a common orbit, which no ASCII tag can be involved
in, is left unmodelled. -/
def goFoldChar (c : Char) : Char :=
  if 97 ≤ c.toNat ∧ c.toNat ≤ 122 then Char.ofNat (c.toNat - 32)
  else if c.toNat = 0x17F then 'S'
  else if c.toNat = 0x212A then 'K'
  else c

/-- Key comparison of Go's JSON field matching: `bytes.EqualFold`
(case-insensitivity under Unicode simple folding), expressed as
equality of the `foldName` images, which Go documents as identical. -/
def eqFold (a b : String) : Bool :=
  a.data.map goFoldChar == b.data.map goFoldChar

/-- Smallest value of Go's 64-bit `int`. -/
def goIntMin : Int := -(2 ^ 63)

/-- Largest value of Go's 64-bit `int`. -/
def goIntMax : Int := 2 ^ 63 - 1

/-- Decode one JSON value into an `int` struct field holding `cur`:
`null` is a no-op, an integral number in range replaces the value, and
anything else (non-integral literal, out-of-range number, wrong type)
is an `UnmarshalTypeError`. -/
def decodeIntField (v : Json) (cur : Int) : Option Int :=
  match v with
  | .null => some cur
  | .num n integral =>
    if integral then
      if goIntMin ≤ n ∧ n ≤ goIntMax then some n else none
    else none
  | _ => none

/-- Fold the members of the `usage` object into the inner struct, in
order, as Go's decoder does: keys matching a field tag
(case-insensitively) update that field, unknown keys are ignored,
type errors abort the decode. -/
def decodeUsageFields (u : Usage) : List (String × Json) → Option Usage
  | [] => some u
  | (k, v) :: rest =>
    if eqFold k "prompt_tokens" then
      match decodeIntField v u.promptTokens with
      | some n => decodeUsageFields { u with promptTokens := n } rest
      | none => none
    else if eqFold k "total_tokens" then
      match decodeIntField v u.totalTokens with
      | some n => decodeUsageFields { u with totalTokens := n } rest
      | none => none
    else if eqFold k "completion_tokens" then
      match decodeIntField v u.completionTokens with
      | some n => decodeUsageFields { u with completionTokens := n } rest
      | none => none
    else decodeUsageFields u rest

/-- Decode a JSON value into the inner usage struct: `null` is a no-op,
an object is folded member by member, anything else is a type error. -/
def decodeUsageValue (u : Usage) : Json → Option Usage
  | .null => some u
  | .obj fs => decodeUsageFields u fs
  | _ => none

/-- Fold the top-level object members into the outer struct: keys
matching the `usage` tag (case-insensitively) decode into the usage
record (repeated keys merge, as in Go), all other keys are ignored. -/
def decodeTopFields (u : Usage) : List (String × Json) → Option Usage
  | [] => some u
  | (k, v) :: rest =>
    if eqFold k "usage" then
      match decodeUsageValue u v with
      | some u2 => decodeTopFields u2 rest
      | none => none
    else decodeTopFields u rest

/-- Decode a parsed JSON document into the handler's anonymous struct:
the document must be an object (or `null`, a no-op leaving the zero
value); the result starts from the zero value of the struct. -/
def decodeOpenAIResp : Json → Option Usage
  | .null => some {}
  | .obj fs => decodeTopFields {} fs
  | _ => none

/-- `json.Unmarshal(body, &openAIResp)` of `main.go`: scan the whole
input, then decode.  `none` is `err != nil`. -/
def unmarshal (s : String) : Option Usage :=
  match parseJson s with
  | some j => decodeOpenAIResp j
  | none => none

/-- A response header mode of the `ProcessingMode` override
(`envoy.extensions.filters.http.ext_proc.v3.ProcessingMode`). -/
inductive HeaderSendMode where
  | DEFAULT
  | SEND
  | SKIP
deriving DecidableEq

/-- A body mode of the `ProcessingMode` override. -/
inductive BodySendMode where
  | NONE
  | STREAMED
  | BUFFERED
  | BUFFERED_PARTIAL
deriving DecidableEq

/-- The `ProcessingMode` override message; fields default to their proto
zero values. -/
structure ProcessingMode where
  requestHeaderMode : HeaderSendMode := .DEFAULT
  responseHeaderMode : HeaderSendMode := .DEFAULT
  requestBodyMode : BodySendMode := .NONE
  responseBodyMode : BodySendMode := .NONE
  requestTrailerMode : HeaderSendMode := .DEFAULT
  responseTrailerMode : HeaderSendMode := .DEFAULT
deriving DecidableEq

/-- An `envoy.config.core.v3.HeaderValue` (key and value; the handler
never sets `raw_value`). -/
structure HeaderValue where
  key : String
  value : String
deriving DecidableEq

/-- An `envoy.config.core.v3.HeaderValueOption` as the handler builds
it: only `header` is set; the deprecated `append` wrapper is left unset
(`none`), and no `append_action` is specified. -/
structure HeaderValueOption where
  header : HeaderValue
  append : Option Bool := none
deriving DecidableEq

/-- An ext_proc `HeaderMutation`: headers to set and headers to remove
(the handler only ever populates `set_headers`). -/
structure HeaderMutation where
  setHeaders : List HeaderValueOption := []
  removeHeaders : List String := []
deriving DecidableEq

/-- An ext_proc `CommonResponse`; the handler only ever sets
`header_mutation` (status, body mutation, trailers stay unset). -/
structure CommonResponse where
  headerMutation : Option HeaderMutation := none
deriving DecidableEq

/-- An ext_proc `BodyResponse` wrapping an optional `CommonResponse`. -/
structure BodyResponse where
  response : Option CommonResponse := none
deriving DecidableEq

/-- An ext_proc `HeadersResponse` wrapping an optional `CommonResponse`. -/
structure HeadersResponse where
  response : Option CommonResponse := none
deriving DecidableEq

/-- The `oneof response` alternatives of `ProcessingResponse` used by
the handler. -/
inductive ResponseOneof where
  | requestHeaders (r : HeadersResponse)
  | requestBody (r : BodyResponse)
  | responseHeaders (r : HeadersResponse)
  | responseBody (r : BodyResponse)
deriving DecidableEq

/-- A `ProcessingResponse`: the `oneof` payload (unset in the default
case of the switch) and the optional `mode_override`. -/
structure ProcessingResponse where
  response : Option ResponseOneof := none
  modeOverride : Option ProcessingMode := none
deriving DecidableEq

/-- A `ProcessingRequest` as dispatched by the handler's `switch`:
the four recognized `oneof` variants, and `unknown` for any other
request payload (the `default` arm).  Header payloads are carried but
never inspected by the handler. -/
inductive ProcessingRequest where
  | requestHeaders (headers : List HeaderValue)
  | requestBody (body : String) (endOfStream : Bool)
  | responseHeaders (headers : List HeaderValue)
  | responseBody (body : String) (endOfStream : Bool)
  | unknown

/-- The `ModeOverride` attached to the ResponseHeaders decision:
`ResponseHeaderMode: SEND`, `ResponseBodyMode: BUFFERED`. -/
def bufferOverride : ProcessingMode :=
  { responseHeaderMode := .SEND, responseBodyMode := .BUFFERED }

/-- The three usage headers, in the order `main.go` builds them. -/
def buildHeaders (u : Usage) : List HeaderValueOption :=
  [ { header := { key := "x-openai-prompt-tokens", value := toString u.promptTokens } },
    { header := { key := "x-openai-total-tokens", value := toString u.totalTokens } },
    { header := { key := "x-openai-completion-tokens", value := toString u.completionTokens } } ]

/-- The pass-through body decision (a `BodyResponse` with no
`CommonResponse`), emitted for request bodies, incomplete response
bodies and failed extraction. -/
def neutralBodyDecision : ProcessingResponse :=
  { response := some (.responseBody {}) }

/-- The decision built on successful extraction: a body decision whose
`CommonResponse` carries a `HeaderMutation` setting the three usage
headers. -/
def mutationDecision (u : Usage) : ProcessingResponse :=
  { response := some (.responseBody
      { response := some { headerMutation := some { setHeaders := buildHeaders u } } }) }

/-- One iteration of the `switch r := req.Request` statement of
`Process` in `main.go`: the decision computed for one callback. -/
def handleMessage : ProcessingRequest → ProcessingResponse
  | .requestHeaders _ => { response := some (.requestHeaders {}) }
  | .requestBody _ _ => { response := some (.requestBody {}) }
  | .responseHeaders _ =>
    { response := some (.responseHeaders {}), modeOverride := some bufferOverride }
  | .responseBody body endOfStream =>
    if !endOfStream then neutralBodyDecision
    else
      match unmarshal body with
      | none => neutralBodyDecision
      | some u => mutationDecision u
  | .unknown => {}

/-- One `srv.Recv()` outcome inside the processing loop: a received
callback together with whether the subsequent `srv.Send` succeeds, the
end of the stream (`io.EOF`), or any other receive error. -/
inductive RecvEvent where
  | msg (m : ProcessingRequest) (sendOk : Bool)
  | eof
  | recvErr

/-- How the `Process` loop returned. -/
inductive Outcome where
  | ok
  | error
deriving DecidableEq

/-- The `for` loop of `Process`: reads callbacks until `eof` (returns
`nil`) or a receive error (returns a gRPC error); every received
callback produces exactly one decision, sent before the next read; a
failed send is only logged, so the loop continues regardless of the
`sendOk` flag.  The first component lists the decisions emitted, the
second the way the loop returned (`none` while the input holds no
terminating event, i.e. the session is still blocked on `Recv`). -/
def processLoop : List RecvEvent → List ProcessingResponse × Option Outcome
  | [] => ([], none)
  | .eof :: _ => ([], some .ok)
  | .recvErr :: _ => ([], some .error)
  | .msg m _ :: rest =>
    (handleMessage m :: (processLoop rest).1, (processLoop rest).2)

/-- The callbacks actually received on a stream: the messages before
the first terminating event. -/
def msgsOf : List RecvEvent → List ProcessingRequest
  | .msg m _ :: rest => m :: msgsOf rest
  | _ => []

/-- The first terminating event of a stream, if any. -/
def terminatorOf : List RecvEvent → Option RecvEvent
  | [] => none
  | .msg _ _ :: rest => terminatorOf rest
  | e :: _ => some e

/-- The header mutation carried by a decision, wherever the `oneof`
payload can hold one. -/
def mutationOf (r : ProcessingResponse) : Option HeaderMutation :=
  match r.response with
  | some (.requestHeaders hr) => hr.response.bind (fun c => c.headerMutation)
  | some (.responseHeaders hr) => hr.response.bind (fun c => c.headerMutation)
  | some (.requestBody br) => br.response.bind (fun c => c.headerMutation)
  | some (.responseBody br) => br.response.bind (fun c => c.headerMutation)
  | none => none

/-- Whether a callback is a ResponseHeaders callback. -/
def isRespHeaders : ProcessingRequest → Bool
  | .responseHeaders _ => true
  | _ => false


/-- The decisions of a session are exactly the received callbacks
mapped through the per-callback handler, in order. -/
theorem processLoop_fst (evs : List RecvEvent) :
    (processLoop evs).1 = (msgsOf evs).map handleMessage := by
  induction evs with
  | nil => rfl
  | cons e rest ih =>
    cases e with
    | msg m s => simp [processLoop, msgsOf, ih]
    | eof => rfl
    | recvErr => rfl

/-- The loop's return value is determined by the first terminating
event of the stream. -/
theorem processLoop_snd (evs : List RecvEvent) :
    (processLoop evs).2 = (match terminatorOf evs with
      | some .eof => some .ok
      | some .recvErr => some .error
      | _ => none) := by
  induction evs with
  | nil => rfl
  | cons e rest ih =>
    cases e with
    | msg m s => simpa [processLoop, terminatorOf] using ih
    | eof => rfl
    | recvErr => rfl

/-- Positions before the first terminating event read back their
message from `msgsOf`. -/
theorem msgsOf_get (evs : List RecvEvent) (i : Nat) (m : ProcessingRequest) (s : Bool)
    (h : evs.get? i = some (.msg m s))
    (hpre : ∀ k, k < i → ∃ mm ss, evs.get? k = some (.msg mm ss)) :
    (msgsOf evs).get? i = some m := by
  induction evs generalizing i with
  | nil => simp at h
  | cons e rest ih =>
    cases i with
    | zero =>
      simp only [List.get?] at h
      injection h with h
      subst h
      rfl
    | succ n =>
      obtain ⟨mm, ss, h0⟩ := hpre 0 (Nat.succ_pos n)
      simp only [List.get?] at h0
      injection h0 with h0
      subst h0
      simp only [List.get?] at h
      show (msgsOf rest).get? n = some m
      exact ih n h (fun k hk => by
        have := hpre (k + 1) (Nat.succ_lt_succ hk)
        simpa using this)

/-- A decision carries a mode override exactly for ResponseHeaders
callbacks. -/
theorem handleMessage_modeOverride (m : ProcessingRequest) :
    (handleMessage m).modeOverride.isSome = isRespHeaders m := by
  cases m with
  | requestHeaders h => rfl
  | requestBody b e => rfl
  | responseHeaders h => rfl
  | unknown => rfl
  | responseBody b e =>
    cases e with
    | false => rfl
    | true =>
      cases hu : unmarshal b <;>
        simp [handleMessage, hu, isRespHeaders, neutralBodyDecision, mutationDecision]

/-- Top-level members whose keys do not fold-match `usage` are skipped
by the decoder. -/
theorem decodeTopFields_skip (u : Usage) (pre rest : List (String × Json))
    (hpre : ∀ p ∈ pre, eqFold p.1 "usage" = false) :
    decodeTopFields u (pre ++ rest) = decodeTopFields u rest := by
  induction pre with
  | nil => rfl
  | cons hd tl ih =>
    obtain ⟨k, v⟩ := hd
    have hk : eqFold k "usage" = false := hpre (k, v) (List.mem_cons_self _ _)
    simp only [List.cons_append, decodeTopFields, hk, Bool.false_eq_true, if_false]
    exact ih (fun p hp => hpre p (List.mem_cons_of_mem _ hp))

/-- Decoding the three-member usage object of the specified shape
yields exactly the three integers, provided they are in `int` range. -/
theorem decodeUsageFields_three (u : Usage) (P T C : Int)
    (hP1 : goIntMin ≤ P) (hP2 : P ≤ goIntMax)
    (hT1 : goIntMin ≤ T) (hT2 : T ≤ goIntMax)
    (hC1 : goIntMin ≤ C) (hC2 : C ≤ goIntMax) :
    decodeUsageFields u
      [("prompt_tokens", .num P true), ("total_tokens", .num T true),
       ("completion_tokens", .num C true)] = some ⟨P, T, C⟩ := by
  have e1 : eqFold "prompt_tokens" "prompt_tokens" = true := by decide
  have e2 : eqFold "total_tokens" "prompt_tokens" = false := by decide
  have e3 : eqFold "total_tokens" "total_tokens" = true := by decide
  have e4 : eqFold "completion_tokens" "prompt_tokens" = false := by decide
  have e5 : eqFold "completion_tokens" "total_tokens" = false := by decide
  have e6 : eqFold "completion_tokens" "completion_tokens" = true := by decide
  simp [decodeUsageFields, decodeIntField, e1, e2, e3, e4, e5, e6,
    hP1, hP2, hT1, hT2, hC1, hC2]

/-- Decoding a top-level object with exactly one (fold-)match for the
`usage` key reduces to decoding that member's value. -/
theorem decodeOpenAIResp_usage (pre post : List (String × Json)) (uval : Json) (u2 : Usage)
    (hpre : ∀ p ∈ pre, eqFold p.1 "usage" = false)
    (hpost : ∀ p ∈ post, eqFold p.1 "usage" = false)
    (hdec : decodeUsageValue {} uval = some u2) :
    decodeOpenAIResp (.obj (pre ++ ("usage", uval) :: post)) = some u2 := by
  have husage : eqFold "usage" "usage" = true := by decide
  show decodeTopFields {} (pre ++ ("usage", uval) :: post) = some u2
  rw [decodeTopFields_skip _ _ _ hpre]
  simp only [decodeTopFields, husage, if_true, hdec]
  have := decodeTopFields_skip u2 post [] hpost
  simpa using this

/-- `Nat.digitChar` never produces a minus sign. -/
theorem digitChar_ne_minus (n : Nat) : Nat.digitChar n ≠ '-' := by
  rcases Nat.lt_or_ge n 16 with h16 | h16
  · interval_cases n <;> decide
  · unfold Nat.digitChar
    rw [if_neg (by omega : ¬ n = 0), if_neg (by omega : ¬ n = 1),
        if_neg (by omega : ¬ n = 2), if_neg (by omega : ¬ n = 3),
        if_neg (by omega : ¬ n = 4), if_neg (by omega : ¬ n = 5),
        if_neg (by omega : ¬ n = 6), if_neg (by omega : ¬ n = 7),
        if_neg (by omega : ¬ n = 8), if_neg (by omega : ¬ n = 9),
        if_neg (by omega : ¬ n = 10), if_neg (by omega : ¬ n = 11),
        if_neg (by omega : ¬ n = 12), if_neg (by omega : ¬ n = 13),
        if_neg (by omega : ¬ n = 14), if_neg (by omega : ¬ n = 15)]
    decide

/-- `Nat.toDigitsCore` only prepends digit characters, so a minus sign
can only come from the seed list. -/
theorem toDigitsCore_ne_minus (b fuel n : Nat) (ds : List Char)
    (hds : ∀ c ∈ ds, c ≠ '-') : ∀ c ∈ Nat.toDigitsCore b fuel n ds, c ≠ '-' := by
  induction fuel generalizing n ds with
  | zero =>
    intro c hc
    exact hds c hc
  | succ f ih =>
    intro c hc
    unfold Nat.toDigitsCore at hc
    by_cases hz : n / b = 0
    · simp only [hz, if_true] at hc
      rcases List.mem_cons.mp hc with rfl | hmem
      · exact digitChar_ne_minus _
      · exact hds c hmem
    · simp only [hz, if_false] at hc
      exact ih (n / b) (Nat.digitChar (n % b) :: ds)
        (fun cc hcc => by
          rcases List.mem_cons.mp hcc with rfl | hmem
          · exact digitChar_ne_minus _
          · exact hds cc hmem) c hc

/-- The decimal representation of a natural number is never the string
`-1` (it contains no minus sign). -/
theorem nat_toString_ne_neg_one (n : Nat) : toString n ≠ "-1" := by
  intro h
  have h2 : Nat.repr n = "-1" := h
  have hd : Nat.toDigits 10 n = ['-', '1'] := congrArg String.data h2
  have hmem : ('-' : Char) ∈ Nat.toDigits 10 n := by
    rw [hd]; exact List.mem_cons_self _ _
  exact toDigitsCore_ne_minus 10 (n + 1) n []
    (fun c hc => absurd hc (List.not_mem_nil c)) '-' hmem rfl


/-- C4 (amended): for every sequence of callbacks received on one
stream, the session emits exactly one decision per callback received,
in the same order, for the full lifetime of the session; a callback of
an unrecognized type receives the neutral, side-effect-free empty
decision.  (The original claim also asserted that recognized callbacks
arriving out of phase receive a neutral decision; the handler is
stateless and dispatches on the callback type alone, so an out-of-phase
ResponseBody is processed in full — see `c4_counterexample`.) -/
theorem c4_one_decision_per_callback :
    (∀ evs : List RecvEvent,
        (processLoop evs).1 = (msgsOf evs).map handleMessage ∧
        (processLoop evs).1.length = (msgsOf evs).length) ∧
    handleMessage .unknown = {} := by
  refine ⟨fun evs => ⟨processLoop_fst evs, ?_⟩, rfl⟩
  rw [processLoop_fst evs, List.length_map]

/-- C4 counterexample: a ResponseBody callback delivered as the very
first message of a stream (out of protocol phase — the expected first
callback is RequestHeaders) does not receive a neutral, side-effect-free
decision: the handler parses it and emits a header mutation. -/
theorem c4_counterexample :
    (processLoop [.msg (.responseBody "\x7b\"usage\":\x7b\"prompt_tokens\":5,\"total_tokens\":15,\"completion_tokens\":10\x7d\x7d" true) true]).1 =
      [mutationDecision ⟨5, 15, 10⟩] ∧
    mutationOf (mutationDecision ⟨5, 15, 10⟩) =
      some { setHeaders := [
        { header := { key := "x-openai-prompt-tokens", value := "5" } },
        { header := { key := "x-openai-total-tokens", value := "15" } },
        { header := { key := "x-openai-completion-tokens", value := "10" } } ] } ∧
    mutationDecision ⟨5, 15, 10⟩ ≠ ({} : ProcessingResponse) ∧
    mutationDecision ⟨5, 15, 10⟩ ≠ neutralBodyDecision := by
  refine ⟨rfl, rfl, ?_, ?_⟩ <;> decide

/-- C6: a ResponseBody callback with end-of-stream = false always
receives the fixed pass-through body decision, independent of the
chunk's byte content (so no JSON parsing can influence it), and that
decision carries no header mutation. -/
theorem c6_nonfinal_chunk_neutral (body : String) :
    handleMessage (.responseBody body false) = neutralBodyDecision ∧
    mutationOf (handleMessage (.responseBody body false)) = none :=
  ⟨rfl, rfl⟩

/-- C7: the loop returns success exactly when the first terminating
receive event is end-of-file, returns an error for any other receive
failure, and a failed send (`sendOk = false`) is non-fatal: the loop
still emits the decision and proceeds to process the rest of the
stream. -/
theorem c7_termination_semantics :
    (∀ evs : List RecvEvent,
        (processLoop evs).2 = (match terminatorOf evs with
          | some .eof => some .ok
          | some .recvErr => some .error
          | _ => none)) ∧
    (∀ (m : ProcessingRequest) (rest : List RecvEvent),
        processLoop (.msg m false :: rest) =
          (handleMessage m :: (processLoop rest).1, (processLoop rest).2)) ∧
    (∀ evs : List RecvEvent, processLoop (.eof :: evs) = ([], some .ok)) ∧
    (∀ evs : List RecvEvent, processLoop (.recvErr :: evs) = ([], some .error)) :=
  ⟨processLoop_snd, fun _ _ => rfl, fun _ => rfl, fun _ => rfl⟩

/-- C9: the decision at any position of any stream is a pure function
of the callback at that position alone — the handler keeps no state
between loop iterations — so two streams holding the same callback at
(possibly different) positions get identical decisions there,
independent of all preceding callbacks and of the send flags. -/
theorem c9_stateless_purity (evs1 evs2 : List RecvEvent) (i j : Nat)
    (m : ProcessingRequest) (s1 s2 : Bool)
    (h1 : evs1.get? i = some (.msg m s1))
    (h2 : evs2.get? j = some (.msg m s2))
    (hp1 : ∀ k, k < i → ∃ mm ss, evs1.get? k = some (.msg mm ss))
    (hp2 : ∀ k, k < j → ∃ mm ss, evs2.get? k = some (.msg mm ss)) :
    (processLoop evs1).1.get? i = some (handleMessage m) ∧
    (processLoop evs1).1.get? i = (processLoop evs2).1.get? j := by
  have g1 : (processLoop evs1).1.get? i = some (handleMessage m) := by
    rw [processLoop_fst, List.get?_map, msgsOf_get evs1 i m s1 h1 hp1]
    rfl
  have g2 : (processLoop evs2).1.get? j = some (handleMessage m) := by
    rw [processLoop_fst, List.get?_map, msgsOf_get evs2 j m s2 h2 hp2]
    rfl
  exact ⟨g1, g1.trans g2.symm⟩

/-- C9 witness: the same RequestBody callback at position 1 of one
stream (after a RequestHeaders and with a failing send) and at position
0 of another receives the identical decision. -/
theorem c9_stateless_purity_witness :
    ([RecvEvent.msg (.requestHeaders []) true,
      .msg (.requestBody "x" true) false].get? 1 =
        some (.msg (.requestBody "x" true) false)) ∧
    ([RecvEvent.msg (.requestBody "x" true) true].get? 0 =
        some (.msg (.requestBody "x" true) true)) ∧
    ((processLoop [RecvEvent.msg (.requestHeaders []) true,
        .msg (.requestBody "x" true) false]).1.get? 1 =
          some (handleMessage (.requestBody "x" true)) ∧
     (processLoop [RecvEvent.msg (.requestHeaders []) true,
        .msg (.requestBody "x" true) false]).1.get? 1 =
       (processLoop [RecvEvent.msg (.requestBody "x" true) true]).1.get? 0) := by
  refine ⟨rfl, rfl,
    c9_stateless_purity _ _ 1 0 (.requestBody "x" true) false true rfl rfl ?_ ?_⟩
  · intro k hk
    interval_cases k
    exact ⟨_, _, rfl⟩
  · intro k hk
    exact absurd hk (Nat.not_lt_zero k)


/-- C5: in a transaction with exactly one ResponseHeaders callback, the
processing-mode override is attached to exactly one decision — the one
answering the ResponseHeaders callback — no other callback type ever
carries one, and the override requests SEND for response headers and
BUFFERED for the response body. -/
theorem c5_buffer_override_once (msgs : List ProcessingRequest)
    (h : msgs.countP (fun m => isRespHeaders m) = 1) :
    ((msgs.map handleMessage).countP (fun r => r.modeOverride.isSome) = 1) ∧
    (∀ (i : Nat) (hs : List HeaderValue), msgs.get? i = some (.responseHeaders hs) →
        (msgs.map handleMessage).get? i =
          some { response := some (.responseHeaders {}),
                 modeOverride := some bufferOverride }) ∧
    (∀ m : ProcessingRequest, isRespHeaders m = false →
        (handleMessage m).modeOverride = none) ∧
    bufferOverride.responseHeaderMode = .SEND ∧
    bufferOverride.responseBodyMode = .BUFFERED := by
  refine ⟨?_, ?_, ?_, rfl, rfl⟩
  · rw [List.countP_map, ← h]
    apply List.countP_congr
    intro a _
    simp [Function.comp, handleMessage_modeOverride]
  · intro i hs hget
    rw [List.get?_map, hget]
    rfl
  · intro m hm
    have h2 := handleMessage_modeOverride m
    rw [hm] at h2
    exact Option.not_isSome_iff_eq_none.mp (by simp [h2])

/-- C5 witness: the in-protocol-order four-callback transaction carries
the buffering override exactly once, on the ResponseHeaders decision. -/
theorem c5_buffer_override_once_witness :
    ([ProcessingRequest.requestHeaders [], .requestBody "b" true,
      .responseHeaders [], .responseBody "x" true].countP
        (fun m => isRespHeaders m) = 1) ∧
    ((([ProcessingRequest.requestHeaders [], .requestBody "b" true,
        .responseHeaders [], .responseBody "x" true].map handleMessage).countP
          (fun r => r.modeOverride.isSome) = 1) ∧
     (∀ (i : Nat) (hs : List HeaderValue),
        [ProcessingRequest.requestHeaders [], .requestBody "b" true,
         .responseHeaders [], .responseBody "x" true].get? i =
           some (.responseHeaders hs) →
        ([ProcessingRequest.requestHeaders [], .requestBody "b" true,
          .responseHeaders [], .responseBody "x" true].map handleMessage).get? i =
          some { response := some (.responseHeaders {}),
                 modeOverride := some bufferOverride }) ∧
     (∀ m : ProcessingRequest, isRespHeaders m = false →
        (handleMessage m).modeOverride = none) ∧
     bufferOverride.responseHeaderMode = .SEND ∧
     bufferOverride.responseBodyMode = .BUFFERED) :=
  ⟨rfl, c5_buffer_override_once _ rfl⟩

/-- C10: whenever any decision of the handler carries a header
mutation, its headers are exactly the three fixed names, in the order
prompt, total, completion; they are placed in the mutation's
`set_headers` list (set/overwrite semantics) with no removals and with
no `append` directive on any entry. -/
theorem c10_header_names_set_semantics (m : ProcessingRequest) (hm : HeaderMutation)
    (h : mutationOf (handleMessage m) = some hm) :
    hm.setHeaders.map (fun o => o.header.key) =
      ["x-openai-prompt-tokens", "x-openai-total-tokens",
       "x-openai-completion-tokens"] ∧
    hm.removeHeaders = [] ∧
    (∀ o ∈ hm.setHeaders, o.append = none) := by
  cases m with
  | requestHeaders hs => simp [handleMessage, mutationOf] at h
  | requestBody b e => simp [handleMessage, mutationOf] at h
  | responseHeaders hs => simp [handleMessage, mutationOf] at h
  | unknown => simp [handleMessage, mutationOf] at h
  | responseBody b e =>
    cases e with
    | false => simp [handleMessage, mutationOf, neutralBodyDecision] at h
    | true =>
      cases hu : unmarshal b with
      | none => simp [handleMessage, hu, mutationOf, neutralBodyDecision] at h
      | some u =>
        simp [handleMessage, hu, mutationOf, mutationDecision] at h
        subst h
        refine ⟨rfl, rfl, ?_⟩
        intro o ho
        simp [buildHeaders] at ho
        rcases ho with rfl | rfl | rfl <;> rfl

/-- C10 witness: the mutation emitted for a complete usage body has the
three fixed header names in order, set semantics, no append flags. -/
theorem c10_header_names_set_semantics_witness :
    (mutationOf (handleMessage (.responseBody "\x7b\"usage\":\x7b\"prompt_tokens\":5,\"total_tokens\":15,\"completion_tokens\":10\x7d\x7d" true)) =
      some { setHeaders := [
        { header := { key := "x-openai-prompt-tokens", value := "5" } },
        { header := { key := "x-openai-total-tokens", value := "15" } },
        { header := { key := "x-openai-completion-tokens", value := "10" } } ] }) ∧
    (({ setHeaders := [
        { header := { key := "x-openai-prompt-tokens", value := "5" } },
        { header := { key := "x-openai-total-tokens", value := "15" } },
        { header := { key := "x-openai-completion-tokens", value := "10" } } ] :
          HeaderMutation }).setHeaders.map (fun o => o.header.key) =
      ["x-openai-prompt-tokens", "x-openai-total-tokens",
       "x-openai-completion-tokens"] ∧
     ({ setHeaders := [
        { header := { key := "x-openai-prompt-tokens", value := "5" } },
        { header := { key := "x-openai-total-tokens", value := "15" } },
        { header := { key := "x-openai-completion-tokens", value := "10" } } ] :
          HeaderMutation }).removeHeaders = [] ∧
     (∀ o ∈ ({ setHeaders := [
        { header := { key := "x-openai-prompt-tokens", value := "5" } },
        { header := { key := "x-openai-total-tokens", value := "15" } },
        { header := { key := "x-openai-completion-tokens", value := "10" } } ] :
          HeaderMutation }).setHeaders, o.append = none)) :=
  ⟨rfl, c10_header_names_set_semantics
    (.responseBody "\x7b\"usage\":\x7b\"prompt_tokens\":5,\"total_tokens\":15,\"completion_tokens\":10\x7d\x7d" true) _ rfl⟩


/-- C1 (amended): for a final response-body callback whose payload is
valid JSON of the form
`\x7b"usage":\x7b"prompt_tokens":P,"total_tokens":T,"completion_tokens":C\x7d\x7d`
with non-negative integers P, T, C representable in the handler's
64-bit `int` (the amendment forced by the overflow counterexample),
the decision's mutation sets exactly three headers, in the fixed order
prompt, total, completion, valued with the decimal strings of P, T, C,
regardless of additional top-level members not matching `usage`. -/
theorem c1_usage_headers (body : String) (pre post : List (String × Json)) (P T C : Int)
    (hP0 : 0 ≤ P) (hT0 : 0 ≤ T) (hC0 : 0 ≤ C)
    (hP1 : P ≤ goIntMax) (hT1 : T ≤ goIntMax) (hC1 : C ≤ goIntMax)
    (hpre : ∀ p ∈ pre, eqFold p.1 "usage" = false)
    (hpost : ∀ p ∈ post, eqFold p.1 "usage" = false)
    (hparse : parseJson body = some (.obj (pre ++
      ("usage", .obj [("prompt_tokens", .num P true), ("total_tokens", .num T true),
        ("completion_tokens", .num C true)]) :: post))) :
    handleMessage (.responseBody body true) = mutationDecision ⟨P, T, C⟩ ∧
    buildHeaders ⟨P, T, C⟩ = [
      { header := { key := "x-openai-prompt-tokens", value := toString P } },
      { header := { key := "x-openai-total-tokens", value := toString T } },
      { header := { key := "x-openai-completion-tokens", value := toString C } } ] := by
  have hmin : ∀ x : Int, 0 ≤ x → goIntMin ≤ x := by
    intro x hx
    unfold goIntMin
    omega
  have hdecu : decodeUsageValue {}
      (.obj [("prompt_tokens", .num P true), ("total_tokens", .num T true),
        ("completion_tokens", .num C true)]) = some ⟨P, T, C⟩ :=
    decodeUsageFields_three {} P T C (hmin P hP0) hP1 (hmin T hT0) hT1 (hmin C hC0) hC1
  have hun : unmarshal body = some ⟨P, T, C⟩ := by
    unfold unmarshal
    rw [hparse]
    exact decodeOpenAIResp_usage pre post _ _ hpre hpost hdecu
  exact ⟨by simp [handleMessage, hun], rfl⟩

/-- C1 witness: a body with an unrelated `id` member and usage counts
5, 15, 10 produces the three decimal headers. -/
theorem c1_usage_headers_witness :
    (parseJson "\x7b\"id\":\"x\",\"usage\":\x7b\"prompt_tokens\":5,\"total_tokens\":15,\"completion_tokens\":10\x7d\x7d" =
      some (.obj [("id", .str "x"),
        ("usage", .obj [("prompt_tokens", .num 5 true), ("total_tokens", .num 15 true),
          ("completion_tokens", .num 10 true)])])) ∧
    (handleMessage (.responseBody "\x7b\"id\":\"x\",\"usage\":\x7b\"prompt_tokens\":5,\"total_tokens\":15,\"completion_tokens\":10\x7d\x7d" true) =
        mutationDecision ⟨5, 15, 10⟩ ∧
      buildHeaders ⟨5, 15, 10⟩ = [
        { header := { key := "x-openai-prompt-tokens", value := toString (5 : Int) } },
        { header := { key := "x-openai-total-tokens", value := toString (15 : Int) } },
        { header := { key := "x-openai-completion-tokens", value := toString (10 : Int) } } ]) :=
  ⟨rfl, c1_usage_headers _ [("id", .str "x")] [] 5 15 10
    (by decide) (by decide) (by decide) (by decide) (by decide) (by decide)
    (by decide) (by decide) rfl⟩

/-- C1 counterexample: the claim quantifies over all non-negative
integers, but a usage object whose `prompt_tokens` is 2^63 (non-negative,
and the body is valid JSON exactly of the claimed shape) overflows Go's
64-bit `int`, so `json.Unmarshal` fails and the decision carries no
headers at all instead of the claimed three. -/
theorem c1_counterexample :
    parseJson "\x7b\"usage\":\x7b\"prompt_tokens\":9223372036854775808,\"total_tokens\":0,\"completion_tokens\":0\x7d\x7d" =
      some (.obj [("usage", .obj [("prompt_tokens", .num 9223372036854775808 true),
        ("total_tokens", .num 0 true), ("completion_tokens", .num 0 true)])]) ∧
    (0 : Int) ≤ 9223372036854775808 ∧
    unmarshal "\x7b\"usage\":\x7b\"prompt_tokens\":9223372036854775808,\"total_tokens\":0,\"completion_tokens\":0\x7d\x7d" = none ∧
    handleMessage (.responseBody "\x7b\"usage\":\x7b\"prompt_tokens\":9223372036854775808,\"total_tokens\":0,\"completion_tokens\":0\x7d\x7d" true) =
      neutralBodyDecision ∧
    mutationOf neutralBodyDecision = none :=
  ⟨rfl, by decide, rfl, rfl, rfl⟩

/-- C2 (amended): for a final response-body callback whose payload
fails extraction — malformed JSON, or valid JSON whose decode into the
usage struct fails (wrong types, out-of-range numbers) — the decision
is the pass-through body decision with an empty mutation set, and the
session continues to process further callbacks.  (Valid JSON merely
lacking a `usage` member is NOT such a failure: it decodes to the zero
record and three zero-valued headers are emitted — see
`c2_counterexample`.) -/
theorem c2_extraction_failure_empty (body : String) (h : unmarshal body = none) :
    handleMessage (.responseBody body true) = neutralBodyDecision ∧
    mutationOf (handleMessage (.responseBody body true)) = none ∧
    (∀ (sendOk : Bool) (rest : List RecvEvent),
        processLoop (.msg (.responseBody body true) sendOk :: rest) =
          (neutralBodyDecision :: (processLoop rest).1, (processLoop rest).2)) := by
  have hh : handleMessage (.responseBody body true) = neutralBodyDecision := by
    simp [handleMessage, h]
  refine ⟨hh, by rw [hh]; rfl, ?_⟩
  intro sendOk rest
  show (handleMessage (.responseBody body true) :: (processLoop rest).1,
    (processLoop rest).2) = _
  rw [hh]

/-- C2 witness: a malformed body yields the empty mutation and the
session keeps answering. -/
theorem c2_extraction_failure_empty_witness :
    (unmarshal "not json" = none) ∧
    (handleMessage (.responseBody "not json" true) = neutralBodyDecision ∧
     mutationOf (handleMessage (.responseBody "not json" true)) = none ∧
     (∀ (sendOk : Bool) (rest : List RecvEvent),
        processLoop (.msg (.responseBody "not json" true) sendOk :: rest) =
          (neutralBodyDecision :: (processLoop rest).1, (processLoop rest).2))) :=
  ⟨rfl, c2_extraction_failure_empty "not json" rfl⟩

/-- C2 counterexample: `\x7b"id":"x"\x7d` is valid JSON lacking a
top-level `usage` object, yet the mutation set is not empty: Go's
decoder leaves the struct at its zero value with no error, and the
handler emits the three headers valued "0". -/
theorem c2_counterexample :
    parseJson "\x7b\"id\":\"x\"\x7d" = some (.obj [("id", .str "x")]) ∧
    unmarshal "\x7b\"id\":\"x\"\x7d" = some ⟨0, 0, 0⟩ ∧
    handleMessage (.responseBody "\x7b\"id\":\"x\"\x7d" true) =
      mutationDecision ⟨0, 0, 0⟩ ∧
    mutationOf (mutationDecision ⟨0, 0, 0⟩) =
      some { setHeaders := [
        { header := { key := "x-openai-prompt-tokens", value := "0" } },
        { header := { key := "x-openai-total-tokens", value := "0" } },
        { header := { key := "x-openai-completion-tokens", value := "0" } } ] } :=
  ⟨rfl, rfl, rfl, rfl⟩

/-- C3 (amended): the handler keeps no per-transaction accumulator:
a non-final chunk is answered with the fixed pass-through decision and
its bytes are discarded, and extraction at end-of-stream operates on
the final chunk's bytes alone (the BUFFERED mode override is what is
relied upon for the proxy to deliver the whole body in one final
callback). -/
theorem c3_final_chunk_only (b1 b2 : String) (s1 s2 : Bool) (rest : List RecvEvent) :
    processLoop (.msg (.responseBody b1 false) s1 ::
        .msg (.responseBody b2 true) s2 :: rest) =
      (neutralBodyDecision :: handleMessage (.responseBody b2 true) :: (processLoop rest).1,
       (processLoop rest).2) := rfl

/-- C3 counterexample: a usage JSON split across two chunks (end=false
then end=true).  The concatenation of the chunks parses to usage
(5, 15, 10), so extraction over the accumulated bytes would emit the
mutation — but the handler parses only the final chunk, which is not
valid JSON on its own, and both decisions carry no mutation. -/
theorem c3_counterexample :
    unmarshal ("\x7b\"usage\":\x7b\"prompt_tokens\":5," ++
      "\"total_tokens\":15,\"completion_tokens\":10\x7d\x7d") = some ⟨5, 15, 10⟩ ∧
    unmarshal "\"total_tokens\":15,\"completion_tokens\":10\x7d\x7d" = none ∧
    (processLoop [.msg (.responseBody "\x7b\"usage\":\x7b\"prompt_tokens\":5," false) true,
        .msg (.responseBody "\"total_tokens\":15,\"completion_tokens\":10\x7d\x7d" true) true]).1 =
      [neutralBodyDecision, neutralBodyDecision] :=
  ⟨rfl, rfl, rfl⟩

/-- C8 (amended): for every successfully parsed usage record the
mutation sets the three headers in the fixed order prompt, total,
completion, each valued with the decimal string (`strconv.Itoa`) of the
parsed integer — which is the decimal representation of a non-negative
integer only when the parsed integers are non-negative; Go happily
parses negative counts (see `c8_counterexample`). -/
theorem c8_decimal_header_values (body : String) (u : Usage)
    (h : unmarshal body = some u) :
    handleMessage (.responseBody body true) = mutationDecision u ∧
    mutationOf (mutationDecision u) = some { setHeaders := buildHeaders u } ∧
    buildHeaders u = [
      { header := { key := "x-openai-prompt-tokens", value := toString u.promptTokens } },
      { header := { key := "x-openai-total-tokens", value := toString u.totalTokens } },
      { header := { key := "x-openai-completion-tokens", value := toString u.completionTokens } } ] :=
  ⟨by simp [handleMessage, h], rfl, rfl⟩

/-- C8 witness: the record (5, 15, 10) produces the three decimal
header values. -/
theorem c8_decimal_header_values_witness :
    (unmarshal "\x7b\"usage\":\x7b\"prompt_tokens\":5,\"total_tokens\":15,\"completion_tokens\":10\x7d\x7d" =
      some ⟨5, 15, 10⟩) ∧
    (handleMessage (.responseBody "\x7b\"usage\":\x7b\"prompt_tokens\":5,\"total_tokens\":15,\"completion_tokens\":10\x7d\x7d" true) =
        mutationDecision ⟨5, 15, 10⟩ ∧
     mutationOf (mutationDecision ⟨5, 15, 10⟩) =
        some { setHeaders := buildHeaders ⟨5, 15, 10⟩ } ∧
     buildHeaders ⟨5, 15, 10⟩ = [
       { header := { key := "x-openai-prompt-tokens",
                     value := toString (Usage.mk 5 15 10).promptTokens } },
       { header := { key := "x-openai-total-tokens",
                     value := toString (Usage.mk 5 15 10).totalTokens } },
       { header := { key := "x-openai-completion-tokens",
                     value := toString (Usage.mk 5 15 10).completionTokens } } ]) :=
  ⟨rfl, c8_decimal_header_values _ ⟨5, 15, 10⟩ rfl⟩

/-- C8 counterexample: extraction successfully parses
`\x7b"usage":\x7b"prompt_tokens":-1\x7d\x7d`, and the resulting first header
value is "-1", which is not the decimal string representation of any
non-negative integer. -/
theorem c8_counterexample :
    unmarshal "\x7b\"usage\":\x7b\"prompt_tokens\":-1\x7d\x7d" = some ⟨-1, 0, 0⟩ ∧
    mutationOf (handleMessage
        (.responseBody "\x7b\"usage\":\x7b\"prompt_tokens\":-1\x7d\x7d" true)) =
      some { setHeaders := [
        { header := { key := "x-openai-prompt-tokens", value := "-1" } },
        { header := { key := "x-openai-total-tokens", value := "0" } },
        { header := { key := "x-openai-completion-tokens", value := "0" } } ] } ∧
    (∀ n : Nat, toString n ≠ "-1") :=
  ⟨rfl, rfl, nat_toString_ne_neg_one⟩


end TokenExtProc


namespace TokenExtProc

example : unmarshal "\x7b\"usage\":\x7b\"prompt_tokens\":5,\"total_tokens\":15,\"completion_tokens\":10\x7d\x7d" = some ⟨5, 15, 10⟩ := rfl
example : unmarshal "\x7b\"id\":\"x\"\x7d" = some ⟨0, 0, 0⟩ := rfl
example : unmarshal "not json" = none := rfl
example : unmarshal "" = none := rfl
example : unmarshal "null" = some ⟨0, 0, 0⟩ := rfl
example : unmarshal "\x7b\"usage\":null\x7d" = some ⟨0, 0, 0⟩ := rfl
example : unmarshal "\x7b\"usage\":\"x\"\x7d" = none := rfl
example : unmarshal "\x7b\"usage\":\x7b\"prompt_tokens\":-1\x7d\x7d" = some ⟨-1, 0, 0⟩ := rfl
example : unmarshal "\x7b\"usage\":\x7b\"prompt_tokens\":9223372036854775808,\"total_tokens\":0,\"completion_tokens\":0\x7d\x7d" = none := rfl
example : unmarshal "\x7b\"usage\":\x7b\"prompt_tokens\":9223372036854775807\x7d\x7d" = some ⟨9223372036854775807, 0, 0⟩ := rfl
example : unmarshal "\x7b\"Usage\":\x7b\"Prompt_Tokens\":7\x7d\x7d" = some ⟨7, 0, 0⟩ := rfl
example : unmarshal "\x7b\"usage\":\x7b\"prompt_tokens\":1.5\x7d\x7d" = none := rfl
example : unmarshal "\x7b\"usage\":\x7b\"prompt_tokens\":1e2\x7d\x7d" = none := rfl
example : unmarshal " \x7b \"usage\" : \x7b \"prompt_tokens\" : 3 \x7d \x7d " = some ⟨3, 0, 0⟩ := rfl
example : unmarshal "\x7b\"usage\":\x7b\"prompt_tokens\":1\x7d\x7d x" = none := rfl
example : unmarshal "[1,2]" = none := rfl
example : unmarshal "\x7b\"a\":[1,\"b\",true,null,\x7b\x7d],\"usage\":\x7b\"prompt_tokens\":2\x7d\x7d" = some ⟨2, 0, 0⟩ := rfl
example : unmarshal "\x7b\"\x7d" = none := rfl
example : unmarshal "\x7b\"usage\":\x7b\"prompt_tokens\":01\x7d\x7d" = none := rfl
example : unmarshal "\x7b\"usage\":\x7b\"prompt_tokens\":1,\x7d\x7d" = none := rfl
example : unmarshal "\x7b\"usage\":\x7b\"prompt_tokens\":4\x7d\x7d" = some ⟨4, 0, 0⟩ := rfl
example : parseJson "\"a\\u0062c\"" = some (.str "abc") := rfl
example : parseJson "true" = some (.bool true) := rfl
example : unmarshal "\x7b\"usage\":\x7b\"prompt_tokens\":1,\"prompt_tokens\":2\x7d\x7d" = some ⟨2, 0, 0⟩ := rfl
example : (unmarshal "\"total\":15\x7d" = none) := rfl

example : eqFold "u\u017Fage" "usage" = true := rfl
example : eqFold "prompt_to\u212Aens" "prompt_tokens" = true := rfl
example : unmarshal "\x7b\"u\u017Fage\":\"x\"\x7d" = none := rfl
example : unmarshal "\x7b\"u\u017Fage\":\x7b\"prompt_tokens\":7\x7d\x7d" = some ⟨7, 0, 0⟩ := rfl
example : unmarshal "\x7b\"usage\":\x7b\"prompt_to\u212Aens\":9\x7d\x7d" = some ⟨9, 0, 0⟩ := rfl

end TokenExtProc
